import Mathlib

/-
Verification of the rltk_rs pathfinding core.

Shallow embedding of src/astar.rs and src/dijkstra.rs.  Guide to the model:

* Cell indices (Rust i32) are modelled as integers.
* f32 cost values are modelled as exact rationals for executions in which
  every float value is finite and no rounding occurs (all inputs used in the
  theorems below are small dyadic values, on which f32 arithmetic is exact).
  A second embedding near the end of the file models f32 values together
  with NaN as FVal, an optional rational, with the Rust semantics
  that arithmetic propagates NaN, the operator less-than is false on NaN,
  and partial_cmp returns no ordering on NaN.
* Rust HashMap fields (closed_list, parents) are modelled as functions into
  Option, with pointwise insert; the code only inserts, removes and looks up
  single keys, so no iteration-order behaviour is lost.
* The Vec open_list of the A-Star search is kept as a list in Vec order
  (push appends at the tail, remove(0) pops the head).
* The while loops are given explicit fuel.  The A-Star loop is bounded by
  its own step counter (step_counter < MAX_ASTAR_STEPS with the counter
  incremented once per iteration), so running it with fuel MAX_ASTAR_STEPS
  from a zero counter is exact: the fuel runs out exactly when the guard
  fails.  The path-reconstruction walk of found_it is unbounded in Rust;
  it takes a fuel parameter wfuel here, and the development quantifies over
  wfuel where the distinction matters.
-/

namespace RltkRs

/-- Exit enumeration and heuristic of the external BaseMap trait: a pair of
pure functions supplying, for a cell, its list of (neighbor, cost) exits and
the pathing distance between two cells. -/
structure BaseMap where
  getAvailableExits : ℤ → List (ℤ × ℚ)
  getPathingDistance : ℤ → ℤ → ℚ

/-- Pointwise insert into a map modelled as a function into Option; models
HashMap insert (and the remove-then-insert at astar.rs line 153, which is
the same pointwise update). -/
def updFun (m : ℤ → Option α) (k : ℤ) (v : α) : ℤ → Option α :=
  fun x => if x = k then some v else m x

/-- Rational addition in an executable normal form; used for all cost
sums so that concrete runs evaluate inside the kernel.  Proved equal to
ordinary rational addition below. -/
def qadd (a b : ℚ) : ℚ := mkRat (a.num * b.den + b.num * a.den) (a.den * b.den)

/-- Bail out if the A-Star search exceeds this many steps (astar.rs line 10). -/
def MAX_ASTAR_STEPS : ℕ := 2048

/-- Result of an A-Star navigation query (astar.rs lines 27-31). -/
structure NavigationPath where
  destination : ℤ
  success : Bool
  steps : List ℤ
deriving DecidableEq, Repr

/-- NavigationPath::new (astar.rs lines 48-50). -/
def NavigationPath.new : NavigationPath :=
  { destination := 0, success := false, steps := [] }

/-- Internal step node of the A-Star search (astar.rs lines 38-43). -/
structure Node where
  idx : ℤ
  f : ℚ
  g : ℚ
  h : ℚ
deriving DecidableEq, Repr

/-- State of a search (astar.rs lines 55-62). -/
structure AStar where
  start : ℤ
  end_ : ℤ
  open_list : List Node
  closed_list : ℤ → Option ℚ
  parents : ℤ → Option ℤ
  step_counter : ℕ

/-- AStar::new (astar.rs lines 66-77): the open list holds the start node
with all scores zero. -/
def AStar.new (start end_ : ℤ) : AStar :=
  { start := start
    end_ := end_
    open_list := [⟨start, 0, 0, 0⟩]
    closed_list := fun _ => none
    parents := fun _ => none
    step_counter := 0 }

/-- AStar::distance_to_end (astar.rs lines 80-82). -/
def AStar.distanceToEnd (a : AStar) (idx : ℤ) (m : BaseMap) : ℚ :=
  m.getPathingDistance idx a.end_

/-- AStar::add_successor (astar.rs lines 85-114).  Returns true when the
successor is the goal; otherwise pushes a node with f = distance + cost,
g = cost, h = distance, unless an open-list entry with the same index has a
strictly lower f or the closed list holds the index with a strictly lower f. -/
def addSuccessor (a : AStar) (q : Node) (idx : ℤ) (cost : ℚ) (m : BaseMap) :
    Bool × AStar :=
  if idx = a.end_ then
    (true, { a with parents := updFun a.parents idx q.idx })
  else
    let distance := a.distanceToEnd idx m
    let s : Node := ⟨idx, qadd distance cost, cost, distance⟩
    let shouldAdd : Bool :=
      ! a.open_list.any (fun e => decide (e.f < s.f) && decide (e.idx = idx))
    let blockedByClosed : Bool :=
      match a.closed_list idx with
      | some v => decide (v < s.f)
      | none => false
    if shouldAdd && ! blockedByClosed then
      (false, { a with open_list := a.open_list ++ [s],
                       parents := updFun a.parents idx q.idx })
    else
      (false, a)

/-- The successor for-loop of AStar::search (astar.rs lines 146-151): each
exit is passed to add_successor with cost equal to the exit cost plus the f
score of the expanded node, and the loop returns early on the goal. -/
def processSuccessors (q : Node) (m : BaseMap) :
    AStar → List (ℤ × ℚ) → Bool × AStar
  | a, [] => (false, a)
  | a, e :: rest =>
    match addSuccessor a q e.1 (qadd e.2 q.f) m with
    | (true, a2) => (true, a2)
    | (false, a2) => processSuccessors q m a2 rest

/-- Outcome of one iteration of the search loop body. -/
inductive StepResult where
  | found (a : AStar)
  | next (a : AStar)

/-- One iteration of the body of AStar::search (astar.rs lines 136-156):
bump the step counter, pop the head of the open list, process its exits
(early return on the goal), record the popped node in the closed list and
re-sort the open list ascending by f.  Returns none when the open list is
empty (loop guard). -/
def searchStep (a : AStar) (m : BaseMap) : Option StepResult :=
  match a.open_list with
  | [] => none
  | q :: rest =>
    let a1 : AStar := { a with step_counter := a.step_counter + 1, open_list := rest }
    match processSuccessors q m a1 (m.getAvailableExits q.idx) with
    | (true, a2) => some (.found a2)
    | (false, a2) =>
      let a3 : AStar := { a2 with closed_list := updFun a2.closed_list q.idx q.f }
      some (.next { a3 with
        open_list := List.insertionSort (fun x y => x.f ≤ y.f) a3.open_list })

/-- The parent-link walk of AStar::found_it (astar.rs lines 122-128):
starting from the step list holding only the end index, repeatedly prepend
the parent of the current index until the start is reached.  The Rust loop
is unbounded and indexes the parents map directly; fuel exhaustion and a
missing parent both yield none. -/
def walkBack (parents : ℤ → Option ℤ) (start : ℤ) :
    ℤ → List ℤ → ℕ → Option (List ℤ)
  | _, _, 0 => none
  | current, steps, fuel + 1 =>
    if current = start then some steps
    else
      match parents current with
      | none => none
      | some p => walkBack parents start p (p :: steps) fuel

/-- AStar::found_it (astar.rs lines 117-131): a success path whose
destination is the end index and whose steps come from the parent walk. -/
def foundIt (wfuel : ℕ) (a : AStar) : Option NavigationPath :=
  (walkBack a.parents a.start a.end_ [a.end_] wfuel).map
    (fun steps => { destination := a.end_, success := true, steps := steps })

/-- The loop of AStar::search (astar.rs lines 134-157): while the open list
is non-empty and the step counter is below MAX_ASTAR_STEPS, run one body
iteration; on goal detection return found_it, otherwise on loop exit return
the untouched NavigationPath::new result. -/
def searchLoop (wfuel : ℕ) (m : BaseMap) : ℕ → AStar → Option NavigationPath
  | 0, _ => some NavigationPath.new
  | fuel + 1, a =>
    if a.step_counter < MAX_ASTAR_STEPS then
      match searchStep a m with
      | none => some NavigationPath.new
      | some (.found a2) => foundIt wfuel a2
      | some (.next a2) => searchLoop wfuel m fuel a2
    else some NavigationPath.new

/-- Fuel given to the found_it parent walk by the top-level entry point; the
Rust walk is unbounded, and every theorem for which the bound matters
quantifies over it. -/
def WALK_FUEL : ℕ := 4096

/-- a_star_search (astar.rs lines 16-19) with the found_it walk fuel
exposed. -/
def aStarSearchWithWalkFuel (wfuel : ℕ) (start end_ : ℤ) (m : BaseMap) :
    Option NavigationPath :=
  searchLoop wfuel m MAX_ASTAR_STEPS (AStar.new start end_)

/-- a_star_search (astar.rs lines 16-19). -/
def aStarSearch (start end_ : ℤ) (m : BaseMap) : Option NavigationPath :=
  aStarSearchWithWalkFuel WALK_FUEL start end_ m

/-- A map in which no cell has any exit. -/
def emptyMap : BaseMap :=
  { getAvailableExits := fun _ => []
    getPathingDistance := fun _ _ => 0 }

/-
Concrete grid for claim C1: a directed line 0 -> 1 -> 2 with unit edge
costs and the absolute-difference heuristic, searched towards the
unreachable goal 3.
-/

/-- C1 grid: cell 0 exits to 1 and cell 1 exits to 2, each at cost 1; the
pathing distance is the absolute difference of the indices. -/
def c1Map : BaseMap :=
  { getAvailableExits := fun c =>
      if c = 0 then [(1, 1)] else if c = 1 then [(2, 1)] else []
    getPathingDistance := fun a b => ((b - a).natAbs : ℚ) }

/-- The open lists produced by the first two iterations of the search loop
body on the C1 grid (none if either iteration ends the loop). -/
def c1FirstTwoOpenLists : Option (List Node × List Node) :=
  match searchStep (AStar.new 0 3) c1Map with
  | some (.next a1) =>
    match searchStep a1 c1Map with
    | some (.next a2) => some (a1.open_list, a2.open_list)
    | _ => none
  | _ => none

/-
Claim C6: zero-cost cycle on which found_it never terminates.  The grid is
0 -> 1, 1 -> 2 and 2 -> 1 at cost 0 plus 2 -> 3 at cost 1, with a zero
heuristic, searched from 0 to 3.  Expanding 2 re-adds node 1 (the closed
entry for 1 does not have a strictly lower f, both being 0), overwriting
the parent of 1 to 2 before the goal 3 is detected with parent 2; the
parent chain from 3 is then 3 -> 2 -> 1 -> 2 -> 1 -> ... and the Rust walk
of found_it (astar.rs lines 124-128) never reaches the start.
-/

/-- C6 grid: a zero-cost cycle between 1 and 2 on the way from 0 to 3. -/
def cycMap : BaseMap :=
  { getAvailableExits := fun c =>
      if c = 0 then [(1, 0)] else if c = 1 then [(2, 0)]
      else if c = 2 then [(1, 0), (3, 1)] else []
    getPathingDistance := fun _ _ => 0 }

/-- The search loop up to goal detection, returning the state passed to
found_it (none when the loop ends in failure instead). -/
def searchRun (m : BaseMap) : ℕ → AStar → Option AStar
  | 0, _ => none
  | fuel + 1, a =>
    if a.step_counter < MAX_ASTAR_STEPS then
      match searchStep a m with
      | none => none
      | some (.found a2) => some a2
      | some (.next a2) => searchRun m fuel a2
    else none

/-- Projection of the search-state fields that the C6 argument needs. -/
def astarProbe (a : AStar) : ℤ × ℤ × Option ℤ × Option ℤ × Option ℤ :=
  (a.start, a.end_, a.parents 1, a.parents 2, a.parents 3)

/-
Claim C9: NaN-aware embedding of the same search.  FVal models an f32
value: some q is a finite value, none is NaN.  Addition propagates NaN,
the Rust operator less-than is false whenever either side is NaN, and
partial_cmp yields no ordering whenever either side is NaN.  The sort at
astar.rs line 155 calls partial_cmp(..).unwrap(), which panics on NaN; the
fallible sort below returns none exactly when a performed comparison has
no ordering, and the loop surfaces that as an error value.
-/

/-- An f32 value: a finite rational, or none for NaN. -/
abbrev FVal := Option ℚ

/-- f32 addition: NaN propagates. -/
def fadd : FVal → FVal → FVal
  | some a, some b => some (qadd a b)
  | _, _ => none

/-- The f32 operator less-than: false when either side is NaN. -/
def flt : FVal → FVal → Bool
  | some a, some b => decide (a < b)
  | _, _ => false

/-- f32 partial_cmp: no ordering when either side is NaN. -/
def fpcmp : FVal → FVal → Option Ordering
  | some a, some b =>
    some (if a < b then Ordering.lt else if b < a then Ordering.gt else Ordering.eq)
  | _, _ => none

/-- BaseMap with f32 results that may be NaN. -/
structure BaseMapF where
  getAvailableExits : ℤ → List (ℤ × FVal)
  getPathingDistance : ℤ → ℤ → FVal

/-- Search node over NaN-aware scores (astar.rs lines 38-43). -/
structure NodeF where
  idx : ℤ
  f : FVal
  g : FVal
  h : FVal
deriving DecidableEq, Repr

/-- Search state over NaN-aware scores (astar.rs lines 55-62). -/
structure AStarF where
  start : ℤ
  end_ : ℤ
  open_list : List NodeF
  closed_list : ℤ → Option FVal
  parents : ℤ → Option ℤ
  step_counter : ℕ

/-- AStar::new over NaN-aware scores (astar.rs lines 66-77). -/
def AStarF.new (start end_ : ℤ) : AStarF :=
  { start := start
    end_ := end_
    open_list := [⟨start, some 0, some 0, some 0⟩]
    closed_list := fun _ => none
    parents := fun _ => none
    step_counter := 0 }

/-- AStar::add_successor over NaN-aware scores (astar.rs lines 85-114);
the open-list scan and the closed-list check use the f32 operator
less-than, which is total (false on NaN) and cannot panic. -/
def addSuccessorF (a : AStarF) (q : NodeF) (idx : ℤ) (cost : FVal)
    (m : BaseMapF) : Bool × AStarF :=
  if idx = a.end_ then
    (true, { a with parents := updFun a.parents idx q.idx })
  else
    let distance := m.getPathingDistance idx a.end_
    let s : NodeF := ⟨idx, fadd distance cost, cost, distance⟩
    let shouldAdd : Bool :=
      ! a.open_list.any (fun e => flt e.f s.f && decide (e.idx = idx))
    let blockedByClosed : Bool :=
      match a.closed_list idx with
      | some v => flt v s.f
      | none => false
    if shouldAdd && ! blockedByClosed then
      (false, { a with open_list := a.open_list ++ [s],
                       parents := updFun a.parents idx q.idx })
    else
      (false, a)

/-- The successor for-loop over NaN-aware scores (astar.rs lines 146-151). -/
def processSuccessorsF (q : NodeF) (m : BaseMapF) :
    AStarF → List (ℤ × FVal) → Bool × AStarF
  | a, [] => (false, a)
  | a, e :: rest =>
    match addSuccessorF a q e.1 (fadd e.2 q.f) m with
    | (true, a2) => (true, a2)
    | (false, a2) => processSuccessorsF q m a2 rest

/-- Fallible insertion into a sorted list using partial_cmp: none as soon
as a performed comparison has no ordering.  An element is placed before
the first element it compares strictly below, matching a stable ascending
sort by f. -/
def orderedInsertF (n : NodeF) : List NodeF → Option (List NodeF)
  | [] => some [n]
  | m :: rest =>
    match fpcmp n.f m.f with
    | none => none
    | some Ordering.lt => some (n :: m :: rest)
    | some _ => (orderedInsertF n rest).map (fun r => m :: r)

/-- Fallible stable sort by f using partial_cmp, modelling
sort_by(partial_cmp(..).unwrap()) at astar.rs line 155: none means some
performed comparison hit NaN, on which the Rust comparator panics.  On a
two-element list it performs exactly the one comparison every comparison
sort must perform. -/
def insertionSortF : List NodeF → Option (List NodeF)
  | [] => some []
  | x :: xs =>
    match insertionSortF xs with
    | none => none
    | some r => orderedInsertF x r

/-- The loop of AStar::search over NaN-aware scores (astar.rs lines
134-157); an error value models the panic of the score sort on NaN. -/
def searchLoopNaN (wfuel : ℕ) (m : BaseMapF) :
    ℕ → AStarF → Except Unit NavigationPath
  | 0, _ => .ok NavigationPath.new
  | fuel + 1, a =>
    if a.step_counter < MAX_ASTAR_STEPS then
      match a.open_list with
      | [] => .ok NavigationPath.new
      | q :: rest =>
        let a1 : AStarF :=
          { a with step_counter := a.step_counter + 1, open_list := rest }
        match processSuccessorsF q m a1 (m.getAvailableExits q.idx) with
        | (true, a2) =>
          match walkBack a2.parents a2.start a2.end_ [a2.end_] wfuel with
          | some steps => .ok { destination := a2.end_, success := true, steps := steps }
          | none => .error ()
        | (false, a2) =>
          let a3 : AStarF :=
            { a2 with closed_list := updFun a2.closed_list q.idx q.f }
          match insertionSortF a3.open_list with
          | none => .error ()
          | some sorted => searchLoopNaN wfuel m fuel { a3 with open_list := sorted }
    else .ok NavigationPath.new

instance : DecidableEq (Except Unit NavigationPath) := fun a b =>
  match a, b with
  | .ok x, .ok y => if h : x = y then isTrue (by rw [h]) else isFalse (by simp [h])
  | .error x, .error y => isTrue (by rw [Unit.ext x y])
  | .ok _, .error _ => isFalse (by simp)
  | .error _, .ok _ => isFalse (by simp)

/-- a_star_search over NaN-aware scores. -/
def aStarSearchNaN (start end_ : ℤ) (m : BaseMapF) : Except Unit NavigationPath :=
  searchLoopNaN WALK_FUEL m MAX_ASTAR_STEPS (AStarF.new start end_)

/-- C9 grid: cell 0 has two unit-cost exits and the pathing distance is
NaN everywhere. -/
def c9Map : BaseMapF :=
  { getAvailableExits := fun c =>
      if c = 0 then [(1, some 1), (2, some 1)] else []
    getPathingDistance := fun _ _ => none }

/-
Embedding of src/dijkstra.rs.  Notes:

* The unreachable sentinel std::f32::MAX is the exact rational F32_MAX.
* The open list is a stack: Vec push-at-the-tail / pop-the-last is
  modelled as cons / head, which pops entries in the same order.
* The closed list is a Vec of bools indexed by cell; Rust indexing panics
  out of range, while List.getD / List.set read false and do nothing out
  of range.  The field read dm.map[tile_idx] likewise panics out of range
  in Rust and reads a default here.  The theorems below either carry
  in-range hypotheses or use concrete in-range inputs, where the two
  semantics agree.
* The while loop of build takes fuel; each iteration either ends the loop
  or pops one entry, and every push flips a closed flag from false to
  true, so for grids whose exits stay in range 2 * mapsize + 2 fuel is
  more than the loop can consume.  The theorems quantifying over grids
  hold for every fuel value.
-/

/-- The unreachable sentinel: the exact value of std::f32::MAX,
(2 to the 128) - (2 to the 104). -/
def F32_MAX : ℚ := 340282346638528859811704183484516925440

/-- Representation of a Dijkstra flow map (dijkstra.rs lines 11-16). -/
structure DijkstraMap where
  map : List ℚ
  size_x : ℤ
  size_y : ℤ
  max_depth : ℚ
deriving DecidableEq, Repr

/-- Number of cells of the map. -/
def DijkstraMap.mapsize (dm : DijkstraMap) : ℕ := (dm.size_x * dm.size_y).toNat

/-- Per-worker layer used by the parallel build (dijkstra.rs lines 19-23). -/
structure ParallelDm where
  map : List ℚ
  max_depth : ℚ
  starts : List ℤ

/-- DijkstraMap::add_if_open (dijkstra.rs lines 45-51): skip when the new
depth exceeds max_depth or the cell is already on the closed list;
otherwise mark it closed and push it. -/
def addIfOpen (max_depth : ℚ) (idx : ℤ) (open_list : List (ℤ × ℚ))
    (closed_list : List Bool) (new_depth : ℚ) : List (ℤ × ℚ) × List Bool :=
  if new_depth > max_depth then (open_list, closed_list)
  else if closed_list.getD idx.toNat false then (open_list, closed_list)
  else ((idx, new_depth) :: open_list, closed_list.set idx.toNat true)

/-- The while loop of the build (dijkstra.rs lines 81-96, also lines
127-142): pop the top entry; when the recorded field value is greater
than its depth, record the depth and push every exit at depth plus exit
cost through add_if_open.  Returns the field and the closed list (the
parallel build reuses the closed list across the sources of a chunk). -/
def floodLoop (exitsOf : ℤ → List (ℤ × ℚ)) (max_depth : ℚ) :
    ℕ → List (ℤ × ℚ) → List Bool → List ℚ → List ℚ × List Bool
  | 0, _, closed_list, fld => (fld, closed_list)
  | _ + 1, [], closed_list, fld => (fld, closed_list)
  | fuel + 1, (tile, depth) :: rest, closed_list, fld =>
    if fld.getD tile.toNat 0 > depth then
      let fld2 := fld.set tile.toNat depth
      let oc := (exitsOf tile).foldl
        (fun (oc : List (ℤ × ℚ) × List Bool) e =>
          addIfOpen max_depth e.1 oc.1 oc.2 (qadd depth e.2)) (rest, closed_list)
      floodLoop exitsOf max_depth fuel oc.1 oc.2 fld2
    else floodLoop exitsOf max_depth fuel rest closed_list fld

/-- Fuel for one source pass; see the module note. -/
def DIJKSTRA_FUEL (mapsize : ℕ) : ℕ := 2 * mapsize + 2

/-- The sequential branch of DijkstraMap::build (dijkstra.rs lines 68-97):
for each start in order, reset the scratch open and closed lists, push the
start at depth 0 and run the flood over the live grid. -/
def buildSeq (dm : DijkstraMap) (starts : List ℤ) (m : BaseMap) : DijkstraMap :=
  let newMap := starts.foldl
    (fun fld s =>
      (floodLoop m.getAvailableExits dm.max_depth
        (DIJKSTRA_FUEL dm.mapsize) [(s, 0)]
        (List.replicate dm.mapsize false) fld).1)
    dm.map
  { dm with map := newMap }

/-- Rust slice::chunks, with the list length as structural fuel: split
into consecutive chunks of the given size (the last chunk may be
shorter).  Every step consumes at least one element, so fuel equal to the
length never runs out; Rust panics on chunk size 0, which build_parallel
never passes (rayon reports at least one thread). -/
def listChunksAux (n : ℕ) : ℕ → List ℤ → List (List ℤ)
  | 0, _ => []
  | _ + 1, [] => []
  | fuel + 1, x :: xs =>
    (x :: xs.take (n - 1)) :: listChunksAux n fuel (xs.drop (n - 1))

/-- Rust slice::chunks. -/
def listChunks (n : ℕ) (l : List ℤ) : List (List ℤ) :=
  listChunksAux n l.length l

/-- The sequentially precomputed adjacency snapshot (dijkstra.rs lines
114-117): the exits of every cell from 0 to mapsize - 1. -/
def precomputeExits (m : BaseMap) (mapsize : ℕ) : List (List (ℤ × ℚ)) :=
  (List.range mapsize).map (fun i => m.getAvailableExits i)

/-- The worker body of the parallel build (dijkstra.rs lines 120-144): one
open and one closed list are allocated per layer and carried across the
starts of the chunk (unlike the sequential build, the closed list is never
reset between starts); exits come from the precomputed snapshot. -/
def runLayer (exitsVec : List (List (ℤ × ℚ))) (mapsize : ℕ)
    (l : ParallelDm) : ParallelDm :=
  let exitsOf : ℤ → List (ℤ × ℚ) := fun t => exitsVec.getD t.toNat []
  let res := l.starts.foldl
    (fun (fc : List ℚ × List Bool) s =>
      floodLoop exitsOf l.max_depth (DIJKSTRA_FUEL mapsize) [(s, 0)] fc.2 fc.1)
    (l.map, List.replicate mapsize false)
  { l with map := res.1 }

/-- DijkstraMap::build_parallel (dijkstra.rs lines 101-152): chunk the
starts by the thread count, give each chunk a fresh full-size layer, run
every layer, then fold the layers into the map by elementwise minimum. -/
def buildParallel (dm : DijkstraMap) (starts : List ℤ) (m : BaseMap)
    (numThreads : ℕ) : DijkstraMap :=
  let mapsize := dm.mapsize
  let layers := (listChunks numThreads starts).map
    (fun chunk => ParallelDm.mk (List.replicate mapsize F32_MAX) dm.max_depth chunk)
  let exitsVec := precomputeExits m mapsize
  let layers2 := layers.map (runLayer exitsVec mapsize)
  let newMap := layers2.foldl
    (fun acc l => (acc.zipWith min l.map) ++ acc.drop l.map.length)
    dm.map
  { dm with map := newMap }

/-- DijkstraMap::build (dijkstra.rs lines 63-98): branch to the parallel
build when there are more starts than threads (numThreads models
rayon::current_num_threads()). -/
def build (dm : DijkstraMap) (starts : List ℤ) (m : BaseMap)
    (numThreads : ℕ) : DijkstraMap :=
  if starts.length > numThreads then buildParallel dm starts m numThreads
  else buildSeq dm starts m

/-- DijkstraMap::new (dijkstra.rs lines 29-34): allocate every cell at the
sentinel and build. -/
def DijkstraMap.new (size_x size_y : ℤ) (starts : List ℤ) (m : BaseMap)
    (max_depth : ℚ) (numThreads : ℕ) : DijkstraMap :=
  build
    { map := List.replicate (size_x * size_y).toNat F32_MAX
      size_x := size_x, size_y := size_y, max_depth := max_depth }
    starts m numThreads

/-- DijkstraMap::new_empty (dijkstra.rs lines 37-41). -/
def DijkstraMap.newEmpty (size_x size_y : ℤ) (max_depth : ℚ) : DijkstraMap :=
  { map := List.replicate (size_x * size_y).toNat F32_MAX
    size_x := size_x, size_y := size_y, max_depth := max_depth }

/-- DijkstraMap::find_lowest_exit (dijkstra.rs lines 157-168): replace
each exit cost by the recorded field value of the neighbor, sort ascending
by that value, return the first neighbor (none without exits). -/
def findLowestExit (dm : DijkstraMap) (position : ℤ) (m : BaseMap) : Option ℤ :=
  let exits := (m.getAvailableExits position).map
    (fun e => (e.1, dm.map.getD e.1.toNat 0))
  if exits.isEmpty then none
  else
    match List.insertionSort (fun a b : ℤ × ℚ => a.2 ≤ b.2) exits with
    | [] => none
    | e :: _ => some e.1

/-- DijkstraMap::find_highest_exit (dijkstra.rs lines 174-185): the body
is identical to find_lowest_exit, including the ascending sort and the
return of the first element. -/
def findHighestExit (dm : DijkstraMap) (position : ℤ) (m : BaseMap) : Option ℤ :=
  let exits := (m.getAvailableExits position).map
    (fun e => (e.1, dm.map.getD e.1.toNat 0))
  if exits.isEmpty then none
  else
    match List.insertionSort (fun a b : ℤ × ℚ => a.2 ≤ b.2) exits with
    | [] => none
    | e :: _ => some e.1

/-
Claim C2: uniform-cost grid on which the sequential and the parallel build
disagree.  A bidirectional line 0 - 1 - 2 - 3 with all edge costs 1, built
from sources 0 and 3.  With two threads both sources land in one chunk;
the parallel layer never resets the closed list between them, so after the
flood from 0 has closed every cell, the flood from 3 sets its own cell to
0 but cannot push any neighbor, leaving cell 2 at distance 2 where the
sequential build records 1.
-/

/-- C2 grid: a uniform-cost bidirectional line of four cells. -/
def lineMap : BaseMap :=
  { getAvailableExits := fun c =>
      if c = 0 then [(1, 1)]
      else if c = 1 then [(0, 1), (2, 1)]
      else if c = 2 then [(1, 1), (3, 1)]
      else if c = 3 then [(2, 1)] else []
    getPathingDistance := fun _ _ => 0 }

/-- C2 starting field: an empty 4 by 1 map with depth bound 100. -/
def c2Dm : DijkstraMap := DijkstraMap.newEmpty 4 1 100

/-
Claim C3: both flow-query helpers sort ascending and return the first
element, so both return the minimum-value neighbor.
-/

/-- C3 field: a built 3 by 1 field recording values 7, 1 and 5. -/
def c3Dm : DijkstraMap := { map := [7, 1, 5], size_x := 3, size_y := 1, max_depth := 10 }

/-- C3 grid: cell 0 exits to cells 1 and 2. -/
def c3Map : BaseMap :=
  { getAvailableExits := fun c => if c = 0 then [(1, 1), (2, 1)] else []
    getPathingDistance := fun _ _ => 0 }

/-
Claim C8: a field newly built from a single source records 0 at the
source, and every cell whose every walk from the source costs more than
max_depth keeps the unreachable sentinel.  The Rust code panics when a
grid hands back a negative cell index (the usize cast overflows the
closed-list access); the theorem therefore assumes exits carry
non-negative indices, which every well-formed grid satisfies.
-/

/-- Cost-annotated reachability along grid exits: a walk from s to c over
exits of g has total cost d. -/
inductive Reaches (g : BaseMap) (s : ℤ) : ℤ → ℚ → Prop
  | refl : Reaches g s s 0
  | step {c : ℤ} {d : ℚ} {e : ℤ × ℚ} :
      Reaches g s c d → e ∈ g.getAvailableExits c → Reaches g s e.1 (d + e.2)

/-
Witness grid for C8: two cells, cell 0 exits to cell 1 at cost 5, depth
bound 3.  Cell 1 is reachable only at cost 5 exceeding the bound, so the
built field is [0, F32_MAX].
-/

/-- C8 witness grid: one edge from 0 to 1 at cost 5. -/
def c8Map : BaseMap :=
  { getAvailableExits := fun c => if c = 0 then [(1, 5)] else []
    getPathingDistance := fun _ _ => 0 }

/-- qadd is rational addition. -/
theorem qadd_eq_add (a b : ℚ) : qadd a b = a + b := (Rat.add_def' a b).symm

/-- C1: the claim states that every successor is generated with cumulative
cost g equal to the parent cumulative cost g plus the edge cost.  The code
instead passes the parent total score f (astar.rs line 147): on the C1 grid
the first expansion yields the node (idx 1, f 3, g 1, h 2), and expanding
it along the unit-cost edge to cell 2 yields (idx 2, f 5, g 4, h 1), whose
g is edge plus parent f (1 + 3 = 4) and not parent g plus edge
(1 + 1 = 2). -/
theorem c1_successor_g_accumulates_parent_f :
    c1FirstTwoOpenLists = some ([⟨1, 3, 1, 2⟩], [⟨2, 5, 4, 1⟩]) ∧
      ((4 : ℚ) ≠ 1 + 1) := by
  constructor
  · decide
  · norm_num

/-- C4: the claim states that search(s, s) succeeds with steps [s] without
expanding a node.  The code has no special case for start = end: on a grid
without exits, search(0, 0) expands the start node, exhausts the open list
and returns the failure path (success false, no steps). -/
theorem c4_search_start_to_start_fails_without_exits :
    aStarSearch 0 0 emptyMap = some { destination := 0, success := false, steps := [] } ∧
      aStarSearch 0 0 emptyMap ≠ some { destination := 0, success := true, steps := [0] } := by
  decide

/-- C5 counterexample: searching for unreachable goal 7 from 0 on the
exit-free grid ends without reaching the goal, yet the returned path has
destination 0 (the NavigationPath::new default), not the requested 7. -/
theorem c5_failure_destination_is_not_requested_end :
    (aStarSearch 0 7 emptyMap).map NavigationPath.success = some false ∧
      (aStarSearch 0 7 emptyMap).map NavigationPath.destination = some 0 ∧
      (aStarSearch 0 7 emptyMap).map NavigationPath.destination ≠ some 7 := by
  decide

/-- foundIt only produces success paths. -/
theorem foundIt_success {wfuel : ℕ} {a : AStar} {r : NavigationPath}
    (h : foundIt wfuel a = some r) : r.success = true := by
  unfold foundIt at h
  cases hw : walkBack a.parents a.start a.end_ [a.end_] wfuel with
  | none => rw [hw] at h; simp at h
  | some steps => rw [hw] at h; simp at h; rw [← h]

/-- Whenever the search loop ends without reaching the goal, it returns the
untouched NavigationPath::new value. -/
theorem searchLoop_failure_default {wfuel : ℕ} {m : BaseMap} :
    ∀ {fuel : ℕ} {a : AStar} {r : NavigationPath},
      searchLoop wfuel m fuel a = some r → r.success = false →
        r = NavigationPath.new := by
  intro fuel
  induction fuel with
  | zero =>
    intro a r h _
    simp only [searchLoop, Option.some_inj] at h
    exact h.symm
  | succ k ih =>
    intro a r h hs
    by_cases hc : a.step_counter < MAX_ASTAR_STEPS
    · rw [searchLoop, if_pos hc] at h
      cases hstep : searchStep a m with
      | none => rw [hstep, Option.some_inj] at h; exact h.symm
      | some res =>
        rw [hstep] at h
        cases res with
        | found a2 =>
          simp only at h
          have := foundIt_success h
          rw [this] at hs
          exact absurd hs (by simp)
        | next a2 => exact ih h hs
    · rw [searchLoop, if_neg hc, Option.some_inj] at h
      exact h.symm

/-- C5 amended: when search ends without reaching the requested end, the
result is the NavigationPath::new default, whose destination is 0 (not the
requested end) and whose step list is empty. -/
theorem c5_failure_returns_default_path (start end_ : ℤ) (m : BaseMap)
    (r : NavigationPath) (h : aStarSearch start end_ m = some r)
    (hs : r.success = false) : r.destination = 0 ∧ r.steps = [] := by
  have hr : r = NavigationPath.new := searchLoop_failure_default h hs
  rw [hr]
  exact ⟨rfl, rfl⟩

/-- Witness for the amended C5 theorem at the concrete exit-free grid. -/
theorem c5_failure_returns_default_path_witness :
    NavigationPath.new.destination = 0 ∧ NavigationPath.new.steps = [] :=
  c5_failure_returns_default_path 0 7 emptyMap NavigationPath.new
    (by decide) (by decide)

/-- The search loop is found_it on the state at goal detection, and the
untouched failure path when the goal is never detected. -/
theorem searchLoop_eq_searchRun (wfuel : ℕ) (m : BaseMap) : ∀ fuel a,
    searchLoop wfuel m fuel a =
      (match searchRun m fuel a with
       | some a2 => foundIt wfuel a2
       | none => some NavigationPath.new) := by
  intro fuel
  induction fuel with
  | zero => intro a; rfl
  | succ k ih =>
    intro a
    by_cases h : a.step_counter < MAX_ASTAR_STEPS
    · simp only [searchLoop, searchRun, if_pos h]
      cases hs : searchStep a m with
      | none => rfl
      | some r =>
        cases r with
        | found a2 => rfl
        | next a2 => exact ih a2
    · simp only [searchLoop, searchRun, if_neg h]

/-- On the C6 grid the goal is detected after three expansions, in a state
whose parent map sends 3 to 2, 2 to 1 and 1 to 2. -/
theorem searchRun_cycMap_probe :
    (searchRun cycMap MAX_ASTAR_STEPS (AStar.new 0 3)).map astarProbe
      = some (0, 3, some 2, some 1, some 2) := by
  decide

/-- A parent walk caught between 1 and 2 never returns, whatever its fuel. -/
theorem walkBack_cycle_12 (P : ℤ → Option ℤ) (hp1 : P 1 = some 2)
    (hp2 : P 2 = some 1) :
    ∀ n s, walkBack P 0 1 s n = none ∧ walkBack P 0 2 s n = none := by
  intro n
  induction n with
  | zero => intro s; exact ⟨rfl, rfl⟩
  | succ k ih =>
    intro s
    constructor
    · show walkBack P 0 1 s (k + 1) = none
      simp only [walkBack, hp1]
      norm_num
      exact (ih (2 :: s)).2
    · show walkBack P 0 2 s (k + 1) = none
      simp only [walkBack, hp2]
      norm_num
      exact (ih (1 :: s)).1

/-- A parent walk from 3 into the 1-2 cycle never returns. -/
theorem walkBack_cycle_3 (P : ℤ → Option ℤ) (hp1 : P 1 = some 2)
    (hp2 : P 2 = some 1) (hp3 : P 3 = some 2) :
    ∀ n s, walkBack P 0 3 s n = none := by
  intro n s
  cases n with
  | zero => rfl
  | succ k =>
    simp only [walkBack, hp3]
    norm_num
    exact (walkBack_cycle_12 P hp1 hp2 k (2 :: s)).2

/-- found_it on a state whose parent chain from the end cycles between 1
and 2 yields no path at any walk fuel. -/
theorem foundIt_cycle (w : ℕ) (a : AStar) (h0 : a.start = 0)
    (h3 : a.end_ = 3) (hp1 : a.parents 1 = some 2)
    (hp2 : a.parents 2 = some 1) (hp3 : a.parents 3 = some 2) :
    foundIt w a = none := by
  unfold foundIt
  rw [h0, h3, walkBack_cycle_3 a.parents hp1 hp2 hp3]
  rfl

/-- C6: the claim states the search always terminates with a well-formed
result.  On the zero-cost-cycle grid the goal is found, but the parent
walk of found_it cycles between cells 1 and 2 forever: for every walk fuel
the reconstruction fails to reach the start, modelling the non-terminating
Rust loop at astar.rs lines 124-128. -/
theorem c6_found_it_walk_never_terminates :
    ∀ wfuel : ℕ, aStarSearchWithWalkFuel wfuel 0 3 cycMap = none := by
  intro w
  unfold aStarSearchWithWalkFuel
  rw [searchLoop_eq_searchRun]
  have hp := searchRun_cycMap_probe
  cases h : searchRun cycMap MAX_ASTAR_STEPS (AStar.new 0 3) with
  | none => rw [h] at hp; simp at hp
  | some A =>
    rw [h] at hp
    simp only [Option.map_some', Option.some_inj, astarProbe,
      Prod.mk.injEq] at hp
    obtain ⟨h0, h3, hp1, hp2, hp3⟩ := hp
    simp only []
    exact foundIt_cycle w A h0 h3 hp1 hp2 hp3

/-- C9: the claim states that no ordering comparison is ever performed on
a non-finite score, so the sort can never hit its fatal branch.  Nothing
in the code rejects NaN: with a NaN heuristic, the first expansion pushes
two successors whose f scores are NaN, and the sort of the open list
performs a partial_cmp on them that has no ordering, hitting the unwrap
panic at astar.rs line 155 (the error value here). -/
theorem c9_nan_score_reaches_sort_and_panics :
    aStarSearchNaN 0 3 c9Map = .error () := by
  decide

/-- C2: the claim states sequential and parallel builds agree on
uniform-cost grids.  On the line grid with sources 0 and 3 in one chunk
of two, the sequential build yields the field [0, 1, 1, 0] while the
parallel build yields [0, 1, 2, 0]: the shared, never-reset closed list of
the chunk blocks the flood from source 3 after its first cell. -/
theorem c2_sequential_and_parallel_builds_differ :
    (buildSeq c2Dm [0, 3] lineMap).map = [0, 1, 1, 0] ∧
      (buildParallel c2Dm [0, 3] lineMap 2).map = [0, 1, 2, 0] ∧
      (buildSeq c2Dm [0, 3] lineMap).map ≠ (buildParallel c2Dm [0, 3] lineMap 2).map := by
  decide

/-- C3: the claim states the toward-helper returns the minimal-value
neighbor and the away-helper the maximal-value one, hence different
neighbors.  On a field whose cell 0 has exits to neighbor 1 (value 1) and
neighbor 2 (value 5), both helpers return neighbor 1: find_highest_exit
(dijkstra.rs lines 174-185) sorts ascending and takes the first element,
exactly like find_lowest_exit, instead of returning neighbor 2. -/
theorem c3_both_helpers_return_minimal_neighbor :
    c3Dm.map.getD 1 0 = 1 ∧ c3Dm.map.getD 2 0 = 5 ∧
      findLowestExit c3Dm 0 c3Map = some 1 ∧
      findHighestExit c3Dm 0 c3Map = some 1 ∧
      findHighestExit c3Dm 0 c3Map ≠ some 2 := by
  decide

/-- C10: building with an empty source list is a no-op: the dispatch
cannot pick the parallel branch (0 sources never exceed the thread
count), and the sequential loop over no sources leaves the field
untouched. -/
theorem c10_build_with_no_sources_is_noop (dm : DijkstraMap) (m : BaseMap)
    (numThreads : ℕ) : build dm [] m numThreads = dm := by
  have h : ¬ (([] : List ℤ).length > numThreads) := by simp
  rw [build, if_neg h]
  rfl

/-
Claim C7: no build operation ever increases a recorded field value.  The
sequential flood only writes a cell under the guard that the current value
is strictly greater (dijkstra.rs lines 88-89), and the parallel recombine
takes an elementwise minimum (dijkstra.rs line 149).
-/

/-- Writing a value no greater than the current entry of a cell never
increases any recorded value of the field. -/
theorem set_getD_le (l : List ℚ) (j : ℕ) (a : ℚ) (h : a ≤ l.getD j 0)
    (i : ℕ) : (l.set j a).getD i 0 ≤ l.getD i 0 := by
  by_cases hij : j = i
  · subst hij
    by_cases hlen : j < l.length
    · rw [List.getD_eq_getElem?_getD, List.getElem?_set_self hlen,
        Option.getD_some]
      exact h
    · rw [List.set_eq_of_length_le (Nat.le_of_not_lt hlen)]
  · rw [List.getD_eq_getElem?_getD, List.getElem?_set_ne hij,
      ← List.getD_eq_getElem?_getD]

/-- The flood loop never increases a recorded field value, whatever its
fuel, frontier, guard array and field. -/
theorem floodLoop_map_le (ex : ℤ → List (ℤ × ℚ)) (md : ℚ) :
    ∀ (fuel : ℕ) (ol : List (ℤ × ℚ)) (cl : List Bool) (fld : List ℚ) (i : ℕ),
      ((floodLoop ex md fuel ol cl fld).1).getD i 0 ≤ fld.getD i 0 := by
  intro fuel
  induction fuel with
  | zero => intro ol cl fld i; exact le_refl _
  | succ k ih =>
    intro ol cl fld i
    match ol with
    | [] => exact le_refl _
    | (tile, depth) :: rest =>
      by_cases hg : fld.getD tile.toNat 0 > depth
      · show ((floodLoop ex md (k + 1) ((tile, depth) :: rest) cl fld).1).getD i 0
          ≤ fld.getD i 0
        rw [floodLoop, if_pos hg]
        exact le_trans (ih _ _ _ i) (set_getD_le fld tile.toNat depth (le_of_lt hg) i)
      · show ((floodLoop ex md (k + 1) ((tile, depth) :: rest) cl fld).1).getD i 0
          ≤ fld.getD i 0
        rw [floodLoop, if_neg hg]
        exact ih _ _ _ i

/-- Folding a per-source operation that never increases values never
increases values. -/
theorem foldl_step_getD_le (f : List ℚ → ℤ → List ℚ)
    (hf : ∀ fld s i, (f fld s).getD i 0 ≤ fld.getD i 0) :
    ∀ (starts : List ℤ) (fld : List ℚ) (i : ℕ),
      (starts.foldl f fld).getD i 0 ≤ fld.getD i 0 := by
  intro starts
  induction starts with
  | nil => intro fld i; exact le_refl _
  | cons s rest ih =>
    intro fld i
    exact le_trans (ih (f fld s) i) (hf fld s i)

/-- The sequential build never increases a recorded field value. -/
theorem buildSeq_map_le (dm : DijkstraMap) (starts : List ℤ) (m : BaseMap)
    (i : ℕ) : (buildSeq dm starts m).map.getD i 0 ≤ dm.map.getD i 0 := by
  exact foldl_step_getD_le _
    (fun fld s j => floodLoop_map_le m.getAvailableExits dm.max_depth
      (DIJKSTRA_FUEL dm.mapsize) [(s, 0)] (List.replicate dm.mapsize false) fld j)
    starts dm.map i

/-- The elementwise-minimum recombination of one parallel layer never
increases a recorded field value. -/
theorem combine_getD_le (acc lmap : List ℚ) (i : ℕ) :
    ((acc.zipWith min lmap) ++ acc.drop lmap.length).getD i 0 ≤ acc.getD i 0 := by
  by_cases hp : i < (acc.zipWith min lmap).length
  · rw [List.getD_append _ _ _ _ hp]
    have hlen := List.length_zipWith min acc lmap
    have h1 : i < acc.length := by omega
    have h2 : i < lmap.length := by omega
    rw [List.getD_eq_getElem?_getD, List.getElem?_zipWith,
      List.getElem?_eq_getElem h1, List.getElem?_eq_getElem h2]
    simp only [Option.getD_some]
    rw [List.getD_eq_getElem?_getD, List.getElem?_eq_getElem h1,
      Option.getD_some]
    exact min_le_left _ _
  · rw [List.getD_append_right _ _ _ _ (Nat.le_of_not_lt hp)]
    have hlen := List.length_zipWith min acc lmap
    by_cases hacc : acc.length ≤ lmap.length
    · have hplen : (acc.zipWith min lmap).length = acc.length := by omega
      rw [List.drop_eq_nil_of_le hacc, List.getD_nil]
      rw [List.getD_eq_default]
      omega
    · have hplen : (acc.zipWith min lmap).length = lmap.length := by omega
      rw [List.getD_eq_getElem?_getD, List.getElem?_drop,
        ← List.getD_eq_getElem?_getD]
      have : lmap.length + (i - (acc.zipWith min lmap).length) = i := by omega
      rw [hplen] at this ⊢
      rw [this]

/-- Folding the recombination over any list of layers never increases a
recorded field value. -/
theorem foldl_combine_getD_le :
    ∀ (layers : List ParallelDm) (acc : List ℚ) (i : ℕ),
      (layers.foldl
        (fun acc l => (acc.zipWith min l.map) ++ acc.drop l.map.length)
        acc).getD i 0 ≤ acc.getD i 0 := by
  intro layers
  induction layers with
  | nil => intro acc i; exact le_refl _
  | cons l rest ih =>
    intro acc i
    exact le_trans (ih _ i) (combine_getD_le acc l.map i)

/-- The parallel build never increases a recorded field value. -/
theorem buildParallel_map_le (dm : DijkstraMap) (starts : List ℤ)
    (m : BaseMap) (numThreads : ℕ) (i : ℕ) :
    (buildParallel dm starts m numThreads).map.getD i 0 ≤ dm.map.getD i 0 := by
  exact foldl_combine_getD_le _ dm.map i

/-- C7: no build call, sequential or parallel, increases any recorded
value of the field: the value of every cell after the build is at most its
value before.  Sequences of builds compose this single-call statement. -/
theorem c7_build_never_increases_any_cell (dm : DijkstraMap)
    (starts : List ℤ) (m : BaseMap) (numThreads : ℕ) (i : ℕ) :
    (build dm starts m numThreads).map.getD i 0 ≤ dm.map.getD i 0 := by
  rw [build]
  by_cases h : starts.length > numThreads
  · rw [if_pos h]
    exact buildParallel_map_le dm starts m numThreads i
  · rw [if_neg h]
    exact buildSeq_map_le dm starts m i

/-- add_if_open yields, beyond the previous frontier, at most the
candidate entry, and only when its depth is within max_depth. -/
theorem addIfOpen_mem (md : ℚ) (idx : ℤ) (ol : List (ℤ × ℚ))
    (cl : List Bool) (nd : ℚ) :
    ∀ p ∈ (addIfOpen md idx ol cl nd).1,
      (p = (idx, nd) ∧ nd ≤ md) ∨ p ∈ ol := by
  intro p hp
  unfold addIfOpen at hp
  split at hp
  · exact Or.inr hp
  · rename_i h1
    split at hp
    · exact Or.inr hp
    · rcases List.mem_cons.mp hp with h | h
      · exact Or.inl ⟨h, le_of_not_lt h1⟩
      · exact Or.inr h

/-- Every element of the frontier after pushing the exits of a popped
entry is either a pushed exit at depth plus cost within max_depth, or an
element of the previous frontier. -/
theorem floodExits_mem (md : ℚ) (depth : ℚ) :
    ∀ (exits : List (ℤ × ℚ)) (ol : List (ℤ × ℚ)) (cl : List Bool),
      ∀ p ∈ (exits.foldl
          (fun (oc : List (ℤ × ℚ) × List Bool) e =>
            addIfOpen md e.1 oc.1 oc.2 (qadd depth e.2)) (ol, cl)).1,
        (∃ e ∈ exits, p = (e.1, qadd depth e.2) ∧ qadd depth e.2 ≤ md) ∨
          p ∈ ol := by
  intro exits
  induction exits with
  | nil => intro ol cl p hp; exact Or.inr hp
  | cons e rest ih =>
    intro ol cl p hp
    simp only [List.foldl_cons] at hp
    rcases ih (addIfOpen md e.1 ol cl (qadd depth e.2)).1
        (addIfOpen md e.1 ol cl (qadd depth e.2)).2 p hp with
      ⟨e2, he2, heq, hle⟩ | hmem
    · exact Or.inl ⟨e2, List.mem_cons_of_mem e he2, heq, hle⟩
    · rcases addIfOpen_mem md e.1 ol cl (qadd depth e.2) p hmem with ⟨heq, hle⟩ | h
      · exact Or.inl ⟨e, List.mem_cons_self e rest, heq, hle⟩
      · exact Or.inr h

/-- With non-negative exit costs and non-negative frontier depths, the
flood never overwrites a recorded 0: a write requires the current value to
be strictly greater than the new depth. -/
theorem floodLoop_keeps_zero (ex : ℤ → List (ℤ × ℚ)) (md : ℚ)
    (hex : ∀ c e, e ∈ ex c → 0 ≤ e.2) :
    ∀ (fuel : ℕ) (ol : List (ℤ × ℚ)) (cl : List Bool) (fld : List ℚ) (j : ℕ),
      (∀ p ∈ ol, 0 ≤ p.2) → fld.getD j 0 = 0 →
      ((floodLoop ex md fuel ol cl fld).1).getD j 0 = 0 := by
  intro fuel
  induction fuel with
  | zero => intro ol cl fld j _ h0; exact h0
  | succ k ih =>
    intro ol cl fld j hol h0
    rcases ol with _ | ⟨⟨tile, depth⟩, rest⟩
    · exact h0
    · have hd : 0 ≤ depth := hol (tile, depth) (List.mem_cons_self _ _)
      by_cases hg : fld.getD tile.toNat 0 > depth
      · rw [floodLoop, if_pos hg]
        have htj : tile.toNat ≠ j := by
          intro he
          rw [he, h0] at hg
          exact absurd hg (not_lt.mpr hd)
        refine ih _ _ _ j ?_ ?_
        · intro p hp
          rcases floodExits_mem md depth (ex tile) rest cl p hp with
            ⟨e, he, heq, _⟩ | hmem
          · rw [heq]
            show 0 ≤ qadd depth e.2
            rw [qadd_eq_add]
            exact add_nonneg hd (hex tile e he)
          · exact hol p (List.mem_cons_of_mem _ hmem)
        · rw [List.getD_eq_getElem?_getD, List.getElem?_set_ne htj,
            ← List.getD_eq_getElem?_getD]
          exact h0
      · rw [floodLoop, if_neg hg]
        exact ih _ _ _ j (fun p hp => hol p (List.mem_cons_of_mem _ hp)) h0

/-- Flood invariant: when every frontier entry is reachable at its depth,
has a non-negative cell index and stays within max_depth, and every
in-range recorded value below the sentinel is witnessed by a walk of cost
at most max_depth, the same holds of every in-range cell after the flood. -/
theorem floodLoop_reach_inv (g : BaseMap) (s : ℤ) (md : ℚ) (n : ℕ)
    (hrange : ∀ c e, e ∈ g.getAvailableExits c → 0 ≤ e.1) :
    ∀ (fuel : ℕ) (ol : List (ℤ × ℚ)) (cl : List Bool) (fld : List ℚ),
      (∀ p ∈ ol, Reaches g s p.1 p.2 ∧ 0 ≤ p.1 ∧ p.2 ≤ md) →
      (∀ i : ℕ, i < n → fld.getD i 0 = F32_MAX ∨
        ∃ d : ℚ, Reaches g s (i : ℤ) d ∧ d ≤ md) →
      ∀ i : ℕ, i < n →
        ((floodLoop g.getAvailableExits md fuel ol cl fld).1).getD i 0 = F32_MAX ∨
          ∃ d : ℚ, Reaches g s (i : ℤ) d ∧ d ≤ md := by
  intro fuel
  induction fuel with
  | zero => intro ol cl fld _ hf i hi; exact hf i hi
  | succ k ih =>
    intro ol cl fld hol hf i hi
    rcases ol with _ | ⟨⟨tile, depth⟩, rest⟩
    · exact hf i hi
    · obtain ⟨hreach, htile0, hdle⟩ := hol (tile, depth) (List.mem_cons_self _ _)
      by_cases hg : fld.getD tile.toNat 0 > depth
      · rw [floodLoop, if_pos hg]
        refine ih _ _ _ ?_ ?_ i hi
        · intro p hp
          rcases floodExits_mem md depth (g.getAvailableExits tile) rest cl p hp with
            ⟨e, he, heq, hle⟩ | hmem
          · rw [heq]
            refine ⟨?_, hrange tile e he, hle⟩
            show Reaches g s e.1 (qadd depth e.2)
            rw [qadd_eq_add]
            exact Reaches.step hreach he
          · exact hol p (List.mem_cons_of_mem _ hmem)
        · intro i2 hi2
          by_cases hit : i2 = tile.toNat
          · right
            refine ⟨depth, ?_, hdle⟩
            rw [hit, Int.toNat_of_nonneg htile0]
            exact hreach
          · rw [List.getD_eq_getElem?_getD, List.getElem?_set_ne (Ne.symm hit),
              ← List.getD_eq_getElem?_getD]
            exact hf i2 hi2
      · rw [floodLoop, if_neg hg]
        exact ih _ _ _ (fun p hp => hol p (List.mem_cons_of_mem _ hp)) hf i hi

/-- C8: a one-source field records 0 at the source, and every cell all of
whose walks from the source cost more than max_depth keeps the sentinel.
Hypotheses: at least one thread (rayon reports at least one), an in-range
source, a non-negative depth bound, non-negative exit costs, and
non-negative exit indices (a negative index panics in Rust). -/
theorem c8_new_single_source_zero_and_sentinel (w h s : ℤ) (g : BaseMap)
    (md : ℚ) (nt : ℕ) (hnt : 1 ≤ nt) (hs0 : 0 ≤ s) (hs1 : s < w * h)
    (hmd : 0 ≤ md)
    (hcost : ∀ c e, e ∈ g.getAvailableExits c → 0 ≤ e.2)
    (hrange : ∀ c e, e ∈ g.getAvailableExits c → 0 ≤ e.1) :
    (DijkstraMap.new w h [s] g md nt).map.getD s.toNat 0 = 0 ∧
      ∀ c : ℤ, 0 ≤ c → c < w * h →
        (∀ d : ℚ, Reaches g s c d → md < d) →
        (DijkstraMap.new w h [s] g md nt).map.getD c.toNat 0 = F32_MAX := by
  have hn : ¬ (([s] : List ℤ).length > nt) := by
    simp only [List.length_singleton]
    omega
  have key : (DijkstraMap.new w h [s] g md nt).map
      = (floodLoop g.getAvailableExits md (DIJKSTRA_FUEL (w * h).toNat)
          [(s, 0)] (List.replicate (w * h).toNat false)
          (List.replicate (w * h).toNat F32_MAX)).1 := by
    rw [DijkstraMap.new, build, if_neg hn]
    simp only [buildSeq, DijkstraMap.mapsize, List.foldl_cons, List.foldl_nil]
  have hsn : s.toNat < (w * h).toNat := by omega
  have hmax_pos : (0 : ℚ) < F32_MAX := by norm_num [F32_MAX]
  constructor
  · rw [key]
    have hget : (List.replicate (w * h).toNat F32_MAX).getD s.toNat 0 = F32_MAX := by
      rw [List.getD_eq_getElem?_getD, List.getElem?_replicate_of_lt hsn,
        Option.getD_some]
    rw [show DIJKSTRA_FUEL (w * h).toNat = (2 * (w * h).toNat + 1) + 1 from rfl]
    rw [floodLoop, if_pos (by rw [hget]; exact hmax_pos)]
    refine floodLoop_keeps_zero g.getAvailableExits md hcost _ _ _ _ _ ?_ ?_
    · intro p hp
      rcases floodExits_mem md 0 (g.getAvailableExits s) [] _ p hp with
        ⟨e, he, heq, _⟩ | hmem
      · rw [heq]
        show 0 ≤ qadd 0 e.2
        rw [qadd_eq_add, zero_add]
        exact hcost s e he
      · exact absurd hmem (List.not_mem_nil p)
    · rw [List.getD_eq_getElem?_getD,
        List.getElem?_set_self (by rw [List.length_replicate]; exact hsn),
        Option.getD_some]
  · intro c hc0 hc1 hfar
    rw [key]
    have hcn : c.toNat < (w * h).toNat := by omega
    have hinv := floodLoop_reach_inv g s md (w * h).toNat hrange
      (DIJKSTRA_FUEL (w * h).toNat) [(s, 0)]
      (List.replicate (w * h).toNat false)
      (List.replicate (w * h).toNat F32_MAX)
      (by
        intro p hp
        rcases List.mem_singleton.mp hp with rfl
        exact ⟨Reaches.refl, hs0, hmd⟩)
      (by
        intro i hi
        left
        rw [List.getD_eq_getElem?_getD, List.getElem?_replicate_of_lt hi,
          Option.getD_some])
      c.toNat hcn
    rcases hinv with hmax | ⟨d, hr, hdle⟩
    · exact hmax
    · exfalso
      rw [Int.toNat_of_nonneg hc0] at hr
      exact absurd hdle (not_le.mpr (hfar d hr))

/-- Inversion for the witness grid: a walk from 0 ends at cell 0 with
cost 0 or at cell 1 with cost 5. -/
theorem c8Map_reach_inv (c : ℤ) (d : ℚ) (hr : Reaches c8Map 0 c d) :
    (c = 0 ∧ d = 0) ∨ (c = 1 ∧ d = 5) := by
  induction hr with
  | refl => exact Or.inl ⟨rfl, rfl⟩
  | step hprev hmem ih =>
    rename_i c2 d2 e
    rcases ih with ⟨hc, hd⟩ | ⟨hc, hd⟩
    · simp [c8Map, hc] at hmem
      subst hmem
      exact Or.inr ⟨rfl, by rw [hd]; norm_num⟩
    · simp [c8Map, hc] at hmem

/-- Every walk of the witness grid reaching cell 1 costs exactly 5. -/
theorem c8Map_reach_one (d : ℚ) (hr : Reaches c8Map 0 1 d) : d = 5 := by
  rcases c8Map_reach_inv 1 d hr with ⟨h0, _⟩ | ⟨_, h5⟩
  · exact absurd h0 (by norm_num)
  · exact h5

/-- Witness for the C8 theorem, at the two-cell grid with an edge of cost
5 and depth bound 3: the source cell gets 0 and the out-of-bound cell
keeps the sentinel. -/
theorem c8_new_single_source_zero_and_sentinel_witness :
    (DijkstraMap.new 2 1 [0] c8Map 3 1).map.getD 0 0 = 0 ∧
      (DijkstraMap.new 2 1 [0] c8Map 3 1).map.getD 1 0 = F32_MAX := by
  have h := c8_new_single_source_zero_and_sentinel 2 1 0 c8Map 3 1
    (le_refl 1) (le_refl 0) (by norm_num) (by norm_num)
    (by
      intro c e he
      by_cases hc : c = 0
      · simp [c8Map, hc] at he
        subst he
        norm_num
      · simp [c8Map, hc] at he)
    (by
      intro c e he
      by_cases hc : c = 0
      · simp [c8Map, hc] at he
        subst he
        norm_num
      · simp [c8Map, hc] at he)
  refine ⟨h.1, ?_⟩
  have h2 := h.2 1 (by norm_num) (by norm_num)
    (by
      intro d hr
      rw [c8Map_reach_one d hr]
      norm_num)
  exact h2

end RltkRs
